import Mathlib

/-!
Verification of the geo-analysis-service report workflow.

Shallow embedding of the JavaScript source of the service:

* `src/services/file.service.js` — brand-name sanitization, file naming,
  file content rendering (plain and cleaned variants), listing and filtering;
* `src/services/claude.service.js` — the Analysis Client: completion
  heuristic (follow-up call on truncation) and the error mapping chain;
* `src/services/brand.service.js` — the orchestrator (current generation);
* `src/routes/analysis.js` — the bulk endpoint handler;
* `src/middleware/auth.js` — API key authentication.

Strings are modelled as Lean `String` / `List Char`; JavaScript regular
expression replacements are translated pass by pass into executable list
functions.  Wall-clock values (timestamps, `moment()` output,
`Date.toLocaleString()` output) are threaded as explicit string/number
parameters, since they are environment inputs to the functions under study.
-/

namespace GeoAnalysis

/-! ### JavaScript string primitives -/

/-- Character class of JavaScript `\s` (the whitespace class used by the
sanitizer's regexes), given by code points. -/
def isJsWs (c : Char) : Bool :=
  decide ((9 ≤ c.toNat ∧ c.toNat ≤ 13) ∨ c.toNat = 32 ∨ c.toNat = 160 ∨ c.toNat = 5760 ∨
    (8192 ≤ c.toNat ∧ c.toNat ≤ 8202) ∨ c.toNat = 8232 ∨ c.toNat = 8233 ∨
    c.toNat = 8239 ∨ c.toNat = 8287 ∨ c.toNat = 12288 ∨ c.toNat = 65279)

/-- Character class of the regex `[a-zA-Z0-9]`. -/
def isAsciiAlnum (c : Char) : Bool :=
  decide ((48 ≤ c.toNat ∧ c.toNat ≤ 57) ∨ (65 ≤ c.toNat ∧ c.toNat ≤ 90) ∨
    (97 ≤ c.toNat ∧ c.toNat ≤ 122))

/-- Character class of the regex `[0-9]` (`\d`). -/
def isAsciiDigit (c : Char) : Bool :=
  decide (48 ≤ c.toNat ∧ c.toNat ≤ 57)

/-- ASCII lower-casing of one character.  This is what JavaScript
`String.toLowerCase` does at every call site in the source, because the call
always follows a regex step that leaves only ASCII characters. -/
def asciiLower (c : Char) : Char :=
  if 65 ≤ c.toNat ∧ c.toNat ≤ 90 then Char.ofNat (c.toNat + 32) else c

/-- JavaScript `s.toLowerCase()` on the (ASCII) strings this service handles. -/
def jsToLower (s : String) : String :=
  ⟨s.data.map asciiLower⟩

/-- Substring test on character lists: does `needle` occur contiguously? -/
def isSubstrCore (needle : List Char) : List Char → Bool
  | [] => needle.isEmpty
  | c :: cs => needle.isPrefixOf (c :: cs) || isSubstrCore needle cs

/-- JavaScript `s.includes(sub)`. -/
def jsIncludes (s sub : String) : Bool :=
  isSubstrCore sub.data s.data

/-- JavaScript `requestId.split('-')[0]`: the prefix before the first hyphen. -/
def shortRequestId (requestId : String) : String :=
  ⟨requestId.data.takeWhile (fun c => c ≠ '-')⟩

/-- JavaScript `c.repeat(n)` for a single character (`'='.repeat(80)` etc.). -/
def repeatChar (c : Char) (n : Nat) : String :=
  ⟨List.replicate n c⟩

/-- JavaScript `a || b` for strings: `b` when `a` is empty (falsy), else `a`. -/
def jsOrElse (a b : String) : String :=
  if a = "" then b else a

/-! ### FileService.sanitizeBrandName (file.service.js lines 233-239)

```js
sanitizeBrandName(brandName) {
  return brandName
    .replace(/[^a-zA-Z0-9\s-_]/g, '') // Remove special characters
    .replace(/\s+/g, '_')             // Replace spaces with underscores
    .toLowerCase()
    .substring(0, 50);                // Limit length
}
```
-/

/-- Keep-set of the regex `[^a-zA-Z0-9\s-_]` (the characters NOT removed by
the first replace). -/
def keepChar (c : Char) : Bool :=
  isAsciiAlnum c || isJsWs c || decide (c.toNat = 45) || decide (c.toNat = 95)

/-- One pass of `replace(/\s+/g, '_')`: each maximal run of whitespace
becomes a single underscore.  The flag records whether the previous character
was inside a whitespace run. -/
def collapseWsAux : Bool → List Char → List Char
  | _, [] => []
  | inRun, c :: cs =>
    if isJsWs c then
      if inRun then collapseWsAux true cs
      else '_' :: collapseWsAux true cs
    else c :: collapseWsAux false cs

/-- The four steps of `sanitizeBrandName` on a character list, in source
order: strip, collapse whitespace, lower-case, truncate to 50. -/
def sanitizeCore (l : List Char) : List Char :=
  ((collapseWsAux false (l.filter keepChar)).map asciiLower).take 50

/-- Embeds `FileService.sanitizeBrandName` (file.service.js lines 233-239). -/
def sanitizeBrandName (brandName : String) : String :=
  ⟨sanitizeCore brandName.data⟩

/-- Character class of the sanitizer's output alphabet `[a-z0-9_-]`. -/
def isSaneChar (c : Char) : Bool :=
  decide ((97 ≤ c.toNat ∧ c.toNat ≤ 122) ∨ (48 ≤ c.toNat ∧ c.toNat ≤ 57) ∨
    c.toNat = 45 ∨ c.toNat = 95)

/-! ### FileService.generateFileName (file.service.js lines 288-294)

```js
generateFileName(brandName, requestId) {
  const timestamp = moment().format('YYYY-MM-DD_HH-mm-ss');
  const sanitizedBrandName = brandName.replace(/[^a-zA-Z0-9]/g, '_').toLowerCase();
  const shortId = requestId.split('-')[0];
  return `${sanitizedBrandName}_analysis_${timestamp}_${shortId}.txt`;
}
```

The `moment()` timestamp is an environment input, passed as a parameter.
-/

/-- The file-name sanitization inlined in `generateFileName`: every character
outside `[a-zA-Z0-9]` becomes an underscore, then lower-case.  Note this is a
different transformation from `sanitizeBrandName`. -/
def fileNameSanitize (brandName : String) : String :=
  ⟨(brandName.data.map (fun c => if isAsciiAlnum c then c else '_')).map asciiLower⟩

/-- Embeds `FileService.generateFileName`, with the `moment()` timestamp string as an
explicit parameter. -/
def generateFileName (brandName requestId timestamp : String) : String :=
  fileNameSanitize brandName ++ "_analysis_" ++ timestamp ++ "_" ++
    shortRequestId requestId ++ ".txt"

/-- The path returned by `FileService.saveAnalysisToFile` (brand-folder
variant, file.service.js lines 249-280): `path.join(reportsDir,
sanitizedBrand, fileName)`. -/
def savedReportPath (reportsDir brandName requestId timestamp : String) : String :=
  reportsDir ++ "/" ++ sanitizeBrandName brandName ++ "/" ++
    generateFileName brandName requestId timestamp

/-! ### Analysis Client (claude.service.js)

`ClaudeService.analyzeBrand` (claude.service.js lines 19-205) and
`ClaudeService.analyzeBrandComprehensive` (the comprehensive service variant,
lines 19-201) both: issue a primary request, test a truncation condition,
and on truncation issue exactly one follow-up request.  The two upstream
calls are modelled as explicit outcomes (`Except`): the embedding describes
what the function computes from whatever the provider returned. -/

/-- One provider response: text plus usage metadata. -/
structure ApiResponse where
  text : String
  inputTokens : Nat
  outputTokens : Nat
  stopReason : String
deriving DecidableEq

/-- Data of a failed provider call: HTTP status (if any), the optional
`retry-after` header, and the error message. -/
structure ErrInfo where
  status : Option Nat
  retryAfterHeader : Option Nat
  message : String
deriving DecidableEq

/-- Error classes thrown by the catch block of `analyzeBrand`
(claude.service.js lines 186-203).  Each constructor corresponds to one
branch of the if-chain and carries the variable data interpolated into that
branch's message. -/
inductive ClaudeApiError where
  | rateLimited (retryAfter : Nat)
  | unauthorized
  | badRequest (message : String)
  | serverError
  | unknown (message : String)
deriving DecidableEq

/-- The error-mapping if-chain of claude.service.js lines 186-203:
429, 401, 400, 500 in order, else the generic wrapper.  The default
retry-after of 60 reproduces `error.headers?.['retry-after'] || 60`. -/
def mapClaudeError (e : ErrInfo) : ClaudeApiError :=
  if e.status = some 429 then .rateLimited (e.retryAfterHeader.getD 60)
  else if e.status = some 401 then .unauthorized
  else if e.status = some 400 then .badRequest e.message
  else if e.status = some 500 then .serverError
  else .unknown e.message

/-- What the Analysis Client returns on success, plus the number of
follow-up (continuation) requests it issued. -/
structure AnalysisOutcome where
  analysis : String
  inputTokens : Nat
  outputTokens : Nat
  totalTokens : Nat
  followUpCalls : Nat
deriving DecidableEq

/-- Closing marker tested by `analyzeBrand`:
`!analysis.includes('## Implementation Roadmap')`. -/
def implementationRoadmapMarker : String := "## Implementation Roadmap"

/-- Closing marker tested by `analyzeBrandComprehensive`:
`!analysis.includes('EXECUTIVE CONCLUSION')`. -/
def executiveConclusionMarker : String := "EXECUTIVE CONCLUSION"

/-- The truncation test `wasIncomplete` (claude.service.js lines 58-60):
stop reason is `max_tokens`, the text is non-empty, and the closing marker is
absent. -/
def wasIncomplete (marker : String) (r : ApiResponse) : Bool :=
  r.stopReason == "max_tokens" && decide (0 < r.text.length) &&
    !(jsIncludes r.text marker)

/-- The post-primary logic of `ClaudeService.analyzeBrand`
(claude.service.js lines 50-175).  On truncation it issues one follow-up
request; a successful follow-up REPLACES the analysis text and the token
counts (lines 128-132: `analysis = continuationResponse.content[0].text`,
`totalInputTokens = ...`); a failed follow-up is swallowed and the
original values are kept (lines 140-143). -/
def analyzeBrandCore (primary : ApiResponse)
    (followUp : Except ErrInfo ApiResponse) : AnalysisOutcome :=
  if wasIncomplete implementationRoadmapMarker primary then
    match followUp with
    | .ok c => ⟨c.text, c.inputTokens, c.outputTokens,
        c.inputTokens + c.outputTokens, 1⟩
    | .error _ => ⟨primary.text, primary.inputTokens, primary.outputTokens,
        primary.inputTokens + primary.outputTokens, 1⟩
  else
    ⟨primary.text, primary.inputTokens, primary.outputTokens,
      primary.inputTokens + primary.outputTokens, 0⟩

/-- The post-primary logic of `ClaudeService.analyzeBrandComprehensive`
(comprehensive variant lines 56-121).  On truncation it issues one follow-up
request; a successful follow-up is APPENDED
(`analysis = analysis + '\n\n' + continuationResponse.content[0].text`) and
token counts are summed (`+=`); a failed follow-up is swallowed and the
original values are kept. -/
def analyzeBrandComprehensiveCore (primary : ApiResponse)
    (followUp : Except ErrInfo ApiResponse) : AnalysisOutcome :=
  if wasIncomplete executiveConclusionMarker primary then
    match followUp with
    | .ok c => ⟨primary.text ++ "\n\n" ++ c.text,
        primary.inputTokens + c.inputTokens,
        primary.outputTokens + c.outputTokens,
        primary.inputTokens + c.inputTokens +
          (primary.outputTokens + c.outputTokens), 1⟩
    | .error _ => ⟨primary.text, primary.inputTokens, primary.outputTokens,
        primary.inputTokens + primary.outputTokens, 1⟩
  else
    ⟨primary.text, primary.inputTokens, primary.outputTokens,
      primary.inputTokens + primary.outputTokens, 0⟩

/-- Embeds `ClaudeService.analyzeBrand` end to end: a failed primary call goes
through the catch block's error mapping; a successful one runs the
completion heuristic and always returns successfully. -/
def claudeAnalyzeBrand (primary followUp : Except ErrInfo ApiResponse) :
    Except ClaudeApiError AnalysisOutcome :=
  match primary with
  | .error e => .error (mapClaudeError e)
  | .ok r => .ok (analyzeBrandCore r followUp)

/-- Embeds `ClaudeService.analyzeBrandComprehensive` end to end.  Its catch block
(comprehensive variant lines 182-199) has the same status chain as
`analyzeBrand`, so the same `mapClaudeError` applies. -/
def claudeAnalyzeBrandComprehensive (primary followUp : Except ErrInfo ApiResponse) :
    Except ClaudeApiError AnalysisOutcome :=
  match primary with
  | .error e => .error (mapClaudeError e)
  | .ok r => .ok (analyzeBrandComprehensiveCore r followUp)

/-! ### Report store state (file.service.js brand-folder variant)

The on-disk report tree is modelled as a list of file entries; `readdir`
enumeration order is the list order.  File creation time (`stats.birthtime`)
is an environment value, threaded as a `Nat` parameter at save time. -/

/-- One file of the report tree: its brand folder (`none` for a loose file in
the reports root), its name, and its creation time. -/
structure FsEntry where
  folder : Option String
  name : String
  created : Nat
deriving DecidableEq

/-- JavaScript `s.endsWith(suffix)`. -/
def jsEndsWith (s suf : String) : Bool :=
  suf.data.isSuffixOf s.data

/-- JavaScript `s.startsWith(p)`. -/
def jsStartsWith (s p : String) : Bool :=
  p.data.isPrefixOf s.data

/-- Embeds `FileService.saveAnalysisToFile` (brand-folder variant, file.service.js
lines 249-280) as a state transformer: create the brand folder (implicit in
the entry's folder field; creation is idempotent), generate the file name,
write the file, return the new tree and the file path. -/
def saveAnalysisToFileFs (reportsDir : String) (fs : List FsEntry)
    (brandName requestId timestamp : String) (now : Nat) :
    List FsEntry × String :=
  let folder := sanitizeBrandName brandName
  let name := generateFileName brandName requestId timestamp
  (fs ++ [⟨some folder, name, now⟩],
   reportsDir ++ "/" ++ folder ++ "/" ++ name)

/-- One row of `FileService.getFilesList` output: loose root files are
reported under the sentinel brand "Legacy" (file.service.js lines 354-390). -/
structure ListedFile where
  fileName : String
  filePath : String
  brandName : String
  brandFolder : Option String
  created : Nat
deriving DecidableEq

/-- How one tree entry appears in a `getFilesList` row. -/
def listedOfEntry (reportsDir : String) (e : FsEntry) : ListedFile :=
  match e.folder with
  | some f => ⟨e.name, reportsDir ++ "/" ++ f ++ "/" ++ e.name, f, some f, e.created⟩
  | none => ⟨e.name, reportsDir ++ "/" ++ e.name, "Legacy", none, e.created⟩

/-- Embeds `FileService.getFilesList` (file.service.js lines 354-390): keep `.txt`
files (both inside brand folders and loose in the root), shape each row, and
sort by creation date descending (`sort((a,b) => b.created - a.created)`,
a stable sort in the host runtime). -/
def getFilesList (reportsDir : String) (fs : List FsEntry) : List ListedFile :=
  ((fs.filter (fun e => jsEndsWith e.name ".txt")).map (listedOfEntry reportsDir)).insertionSort
    (fun a b => b.created ≤ a.created)

/-- Embeds `BrandService.getAllReports` (validation.js lines 711-754): optional
case-insensitive substring filter on brand name OR file name, then optional
inclusive creation-date bounds. -/
def getAllReports (reportsDir : String) (fs : List FsEntry)
    (brandNameFilter : Option String) (fromDate toDate : Option Nat) :
    List ListedFile :=
  let files := getFilesList reportsDir fs
  let f1 := match brandNameFilter with
    | some term =>
        files.filter (fun f =>
          jsIncludes (jsToLower f.brandName) (jsToLower term) ||
          jsIncludes (jsToLower f.fileName) (jsToLower term))
    | none => files
  let f2 := match fromDate with
    | some d => f1.filter (fun f => d ≤ f.created)
    | none => f1
  match toDate with
  | some d => f2.filter (fun f => f.created ≤ d)
  | none => f2

/-! ### Orchestrator (brand.service.js, current generation, in
validation.js lines 476-871) -/

/-- JavaScript `s.trim()`. -/
def jsTrim (s : String) : String :=
  ⟨((s.data.dropWhile isJsWs).reverse.dropWhile isJsWs).reverse⟩

/-- The comprehensive request body (validated form data). -/
structure FormData where
  brandName : String
  websiteUrl : String
  email : String
  competitors : List String
  topics : List String
  prompts : List String
  personas : String
deriving DecidableEq

/-- Test of the regex `/^[^\s@]+@[^\s@]+\.[^\s@]+$/` used by
`BrandService.validateFormData`.  Because `[^\s@]` excludes `@`, a match
needs exactly one `@`, no whitespace, a non-empty part before the `@`, and a
`.` after the `@` with at least one character on each side of it. -/
def emailRegexTest (s : String) : Bool :=
  let l := s.data
  let before := l.takeWhile (fun c => c ≠ '@')
  let after := l.drop (before.length + 1)
  decide (before ≠ []) && decide (before.length < l.length) &&
    after.all (fun c => c ≠ '@') && l.all (fun c => !(isJsWs c)) &&
    ((after.drop 1).dropLast.contains '.')

/-- Embeds `BrandService.validateFormData` (validation.js lines 660-704): the list
of error messages, in source order.  Whether `new URL(websiteUrl)` parses is
a host-API outcome, passed as the `urlParses` flag. -/
def validateFormData (fd : FormData) (urlParses : Bool) : List String :=
  (if fd.brandName = "" ∨ jsTrim fd.brandName = "" then ["Brand name is required"] else []) ++
  (if fd.websiteUrl = "" ∨ jsTrim fd.websiteUrl = "" then ["Website URL is required"] else []) ++
  (if fd.email = "" ∨ jsTrim fd.email = "" then ["Email address is required"] else []) ++
  (if fd.email ≠ "" ∧ ¬ emailRegexTest fd.email then ["Invalid email format"] else []) ++
  (if ¬ urlParses then ["Invalid website URL format"] else []) ++
  (if fd.competitors.length > 5 then ["Maximum 5 competitors allowed"] else []) ++
  (if fd.topics.length > 4 then ["Maximum 4 topics allowed"] else []) ++
  (if fd.prompts.length > 4 then ["Maximum 4 prompts allowed"] else [])

/-- Errors surfaced by the comprehensive orchestrator: its own validation
error, or the Analysis Client's error rethrown. -/
inductive OrchError where
  | validationFailed (messages : List String)
  | upstream (e : ClaudeApiError)
deriving DecidableEq

/-- What the orchestrator returns to the route layer (the fields the claims
inspect). -/
structure OrchResult where
  requestId : String
  brandName : String
  filePath : String
deriving DecidableEq

/-- Embeds `BrandService.analyzeBrand` (legacy, validation.js lines 580-654): call
the Analysis Client; on failure rethrow the same error without touching the
tree; on success save and return.  The Analysis Client call is an explicit
outcome parameter. -/
def brandServiceAnalyzeBrand (reportsDir : String) (fs : List FsEntry)
    (claudeResult : Except ClaudeApiError AnalysisOutcome)
    (brandName requestId timestamp : String) (now : Nat) :
    Except ClaudeApiError OrchResult × List FsEntry :=
  match claudeResult with
  | .error e => (.error e, fs)
  | .ok _ =>
      let saved := saveAnalysisToFileFs reportsDir fs brandName requestId timestamp now
      (.ok ⟨requestId, brandName, saved.2⟩, saved.1)

/-- Embeds `BrandService.analyzeComprehensiveBrand` (validation.js lines 487-572):
validate the form data, call the Analysis Client, save on success; a
validation error or client error is thrown before any file is written. -/
def brandServiceAnalyzeComprehensive (reportsDir : String) (fs : List FsEntry)
    (fd : FormData) (urlParses : Bool)
    (claudeResult : Except ClaudeApiError AnalysisOutcome)
    (requestId timestamp : String) (now : Nat) :
    Except OrchError OrchResult × List FsEntry :=
  if validateFormData fd urlParses ≠ [] then
    (.error (.validationFailed (validateFormData fd urlParses)), fs)
  else
    match claudeResult with
    | .error e => (.error (.upstream e), fs)
    | .ok _ =>
        let saved := saveAnalysisToFileFs reportsDir fs fd.brandName requestId timestamp now
        (.ok ⟨requestId, fd.brandName, saved.2⟩, saved.1)

/-! ### Bulk endpoint (routes/analysis.js lines 157-214) -/

/-- What `brandService.analyzeBrand` resolves to for one brand (the fields
the bulk handler reads). -/
structure BrandResult where
  brandName : String
  fileName : String
  requestId : String
deriving DecidableEq

/-- One entry of the bulk response's `successful` array. -/
structure BulkSuccess where
  brandName : String
  fileName : String
  requestId : String
deriving DecidableEq

/-- One entry of the bulk response's `failed` array: the input brand name and
the error message. -/
structure BulkFailure where
  brandName : String
  error : String
deriving DecidableEq

/-- The bulk endpoint's response: a 400 rejection, or the per-brand
breakdown with its summary counts.  (The `successRate` percentage string is
derived from the two counts by floating-point formatting and is not
modelled.) -/
inductive BulkResponse where
  | badRequest (error : String)
  | ok (successful : List BulkSuccess) (failed : List BulkFailure)
      (total successCount failCount : Nat)
deriving DecidableEq

/-- The `for (const brandName of brands)` loop of the bulk handler: each
brand is analyzed in order; a success is pushed to `results`, a failure to
`errors` with that brand's name and the error message; the loop never
aborts.  Also returns the sequence of brands actually passed to the
analyzer, in call order. -/
def bulkLoop (analyze : String → Except String BrandResult) :
    List String → List BulkSuccess × List BulkFailure × List String
  | [] => ([], [], [])
  | b :: bs =>
    let rest := bulkLoop analyze bs
    match analyze b with
    | .ok r => (⟨r.brandName, r.fileName, r.requestId⟩ :: rest.1, rest.2.1, b :: rest.2.2)
    | .error msg => (rest.1, ⟨b, msg⟩ :: rest.2.1, b :: rest.2.2)

/-- Embeds `POST /api/analysis/bulk` (routes/analysis.js lines 157-214): reject an
empty list or more than 10 brands with a 400 before analyzing anything;
otherwise run the sequential loop and report the breakdown.  Returns the
response together with the sequence of brands analyzed. -/
def bulkHandler (analyze : String → Except String BrandResult)
    (brands : List String) : BulkResponse × List String :=
  if brands.length = 0 then
    (.badRequest "Brands array is required and must not be empty", [])
  else if brands.length > 10 then
    (.badRequest "Maximum 10 brands allowed per bulk request", [])
  else
    let r := bulkLoop analyze brands
    (.ok r.1 r.2.1 brands.length r.1.length r.2.1.length, r.2.2)

/-! ### Authentication middleware (middleware/auth.js) -/

/-- Outcome of the `auth` middleware. -/
inductive AuthOutcome where
  | noKey401
  | invalidKey401
  | authorized
deriving DecidableEq

/-- JavaScript truthiness of an optional string header. -/
def truthyString : Option String → Bool
  | some s => decide (s ≠ "")
  | none => false

/-- The `auth` middleware (middleware/auth.js lines 279-331): a Bearer
`Authorization` header takes precedence; otherwise a non-empty `x-api-key`
header; the provided key is compared to the configured key. -/
def authMiddleware (authHeader apiKeyHeader : Option String)
    (configKey : String) : AuthOutcome :=
  let providedKey : Option String :=
    if truthyString authHeader &&
        jsStartsWith (authHeader.getD "") "Bearer " then
      some ⟨(authHeader.getD "").data.drop 7⟩
    else if truthyString apiKeyHeader then apiKeyHeader
    else none
  match providedKey with
  | none => .noKey401
  | some k => if k ≠ configKey then .invalidKey401 else .authorized

/-! ### Report file content (file.service.js lines 304-348 and 687-764)

Two `createFileContent` variants exist.  The one at lines 304-348 returns
`header + analysisText + footer` verbatim; the one at lines 687-716 first
runs the analysis text through `cleanAnalysisText` (lines 723-764), a chain
of regex replacements.  `new Date(...).toLocaleString()` values are
environment inputs, threaded as string parameters. -/

/-- The metadata fields the content templates interpolate.  `timestampStr`
is the rendered `new Date(metadata.timestamp).toLocaleString()`. -/
structure Metadata where
  timestampStr : String
  requestId : String
  model : String
  processingTime : Nat
  tokensUsed : Nat
  inputTokens : Nat
  outputTokens : Nat
  responseLength : Nat
deriving DecidableEq

/-- The header template of `createFileContent` (lines 306-334). -/
def createFileContentHeader (brandName : String) (m : Metadata) (fd : FormData) : String :=
  "AI/LLM BRAND VISIBILITY AUDIT REPORT\n" ++ repeatChar '=' 80 ++
  "\n\nBRAND: " ++ brandName ++
  "\nWEBSITE: " ++ jsOrElse fd.websiteUrl "Not provided" ++
  "\nCONTACT: " ++ jsOrElse fd.email "Not provided" ++
  "\nGENERATED: " ++ m.timestampStr ++
  "\nREQUEST ID: " ++ m.requestId ++
  "\n\nANALYSIS PARAMETERS:\n- AI Model: " ++ m.model ++
  "\n- Processing Time: " ++ toString m.processingTime ++ "ms" ++
  "\n- Tokens Used: " ++ toString m.tokensUsed ++
  "\n- Input Tokens: " ++ toString m.inputTokens ++
  "\n- Output Tokens: " ++ toString m.outputTokens ++
  "\n- Response Length: " ++ toString m.responseLength ++ " characters" ++
  "\n- Analysis Quality: " ++
    (if 5000 < m.responseLength then "COMPREHENSIVE" else "STANDARD") ++
  "\n\nCLIENT SPECIFICATIONS:\n" ++
  (if fd.competitors.length > 0 then
    "- Competitors Analyzed: " ++ String.intercalate ", " fd.competitors
   else "- Competitors: AI-Generated List") ++ "\n" ++
  (if fd.personas ≠ "" then "- Target Personas: " ++ fd.personas
   else "- Target Personas: AI-Generated") ++ "\n" ++
  (if fd.topics.length > 0 then
    "- Key Topics: " ++ String.intercalate ", " fd.topics
   else "- Key Topics: AI-Generated") ++ "\n" ++
  (if fd.prompts.length > 0 then
    "- Custom Prompts: " ++ toString fd.prompts.length ++ " provided"
   else "- Prompts: AI-Generated") ++
  "\n\n" ++ repeatChar '=' 80 ++ "\nCOMPREHENSIVE ANALYSIS RESULTS\n" ++
  repeatChar '=' 80 ++ "\n\n"

/-- The footer template of `createFileContent` (lines 336-345).  `nowStr` is
the rendered `new Date().toLocaleString()`. -/
def createFileContentFooter (fd : FormData) (nowStr : String) : String :=
  "\n\n" ++ repeatChar '=' 80 ++ "\nEND OF ANALYSIS\n" ++ repeatChar '=' 80 ++
  "\n\nReport generated by Geo Analysis Service" ++
  "\nFor questions or clarifications, contact: " ++ jsOrElse fd.email "client" ++
  "\nAnalysis Date: " ++ nowStr ++
  "\nService Version: 1.0.0"

/-- Embeds `FileService.createFileContent` (plain variant, lines 304-348):
`header + analysisText + footer`. -/
def createFileContent (brandName analysisText : String) (m : Metadata)
    (fd : FormData) (nowStr : String) : String :=
  createFileContentHeader brandName m fd ++ analysisText ++
    createFileContentFooter fd nowStr

/-! #### cleanAnalysisText (lines 723-764), regex pass by regex pass -/

/-- First occurrence split: `some (before, after)` when the input is
`before ++ pat ++ after` at the leftmost occurrence of `pat` (callers pass a
non-empty `pat`). -/
def splitOnFirst (pat : List Char) : List Char → Option (List Char × List Char)
  | [] => none
  | c :: cs =>
    if pat.isPrefixOf (c :: cs) then some ([], (c :: cs).drop pat.length)
    else
      match splitOnFirst pat cs with
      | some (b, a) => some (c :: b, a)
      | none => none

/-- Global replacement of `pre[\s\S]*?post\s*` (or without the trailing
`\s*` when `stripWs` is false) by the empty string: the lazy body runs to
the FIRST occurrence of `post` after `pre`; scanning resumes after the
match.  Fuel bounds the number of matches; each match consumes at least one
character, so an initial fuel of the input length is always enough. -/
def replaceLazyBetweenAux (pre post : List Char) (stripWs : Bool) :
    Nat → List Char → List Char
  | 0, s => s
  | fuel + 1, s =>
    match splitOnFirst pre s with
    | none => s
    | some (b, rest) =>
      match splitOnFirst post rest with
      | none => s
      | some (_, after) =>
        let after2 := if stripWs then after.dropWhile isJsWs else after
        b ++ replaceLazyBetweenAux pre post stripWs fuel after2

/-- Entry point of `replaceLazyBetweenAux` with sufficient fuel. -/
def replaceLazyBetween (pre post : List Char) (stripWs : Bool)
    (s : List Char) : List Char :=
  replaceLazyBetweenAux pre post stripWs (s.length + 1) s

/-- Rewrite every maximal run of characters satisfying `p` through `f`,
leaving other characters untouched.  This is the shape of every
`replace(/X{n,}/g, ...)` pass: a global regex on a single-character class
always matches maximal runs. -/
def mapRunsAux (p : Char → Bool) (f : List Char → List Char) :
    List Char → List Char → List Char
  | acc, [] => if acc.isEmpty then [] else f acc.reverse
  | acc, c :: cs =>
    if p c then mapRunsAux p f (c :: acc) cs
    else (if acc.isEmpty then [] else f acc.reverse) ++ c :: mapRunsAux p f [] cs

/-- Entry point of `mapRunsAux` with an empty run accumulator. -/
def mapRuns (p : Char → Bool) (f : List Char → List Char)
    (s : List Char) : List Char :=
  mapRunsAux p f [] s

/-- Embeds `replace(/#{4,}/g, '')`: runs of 4 or more hashes are removed. -/
def stripHashRuns4 (s : List Char) : List Char :=
  mapRuns (· == '#') (fun r => if 4 ≤ r.length then [] else r) s

/-- Embeds `replace(/#{3}/g, '')`: each non-overlapping triple of hashes in a run
is removed, leaving `length % 3` hashes. -/
def stripHashTriples (s : List Char) : List Char :=
  mapRuns (· == '#') (fun r => List.replicate (r.length % 3) '#') s

/-- Embeds `replace(/#{2}/g, '\n')`: each non-overlapping pair of hashes becomes a
newline, a leftover single hash stays. -/
def hashPairsToNewlines (s : List Char) : List Char :=
  mapRuns (· == '#')
    (fun r => List.replicate (r.length / 2) '\n' ++ List.replicate (r.length % 2) '#') s

/-- Embeds `replace(/#{1}/g, '\n')`: every remaining hash becomes a newline. -/
def hashToNewline (s : List Char) : List Char :=
  s.map (fun c => if c == '#' then '\n' else c)

/-- Embeds `replace(/\*{3,}/g, '')`. -/
def stripStarRuns3 (s : List Char) : List Char :=
  mapRuns (· == '*') (fun r => if 3 ≤ r.length then [] else r) s

/-- Embeds `replace(/\*{2}/g, '')`. -/
def stripStarPairs (s : List Char) : List Char :=
  mapRuns (· == '*') (fun r => List.replicate (r.length % 2) '*') s

/-- Embeds `replace(/\*{1}/g, '')`: every remaining star is removed. -/
def stripStars (s : List Char) : List Char :=
  s.filter (fun c => c != '*')

/-- Pass `replace` of dash runs `-` of length 3 or more by the empty string. -/
def stripDashRuns3 (s : List Char) : List Char :=
  mapRuns (· == '-') (fun r => if 3 ≤ r.length then [] else r) s

/-- Embeds `replace(/={3,}/g, '')`. -/
def stripEqRuns3 (s : List Char) : List Char :=
  mapRuns (· == '=') (fun r => if 3 ≤ r.length then [] else r) s

/-- Embeds `replace(/\n{4,}/g, '\n\n\n')`. -/
def capNewlines4 (s : List Char) : List Char :=
  mapRuns (· == '\n') (fun r => if 4 ≤ r.length then List.replicate 3 '\n' else r) s

/-- Embeds `replace(/\n{3}/g, '\n\n')`: each non-overlapping newline triple becomes
a pair. -/
def newlineTriplesToPairs (s : List Char) : List Char :=
  mapRuns (· == '\n')
    (fun r => List.replicate (2 * (r.length / 3) + r.length % 3) '\n') s

/-- ECMAScript LineTerminator set, which multiline `^` matches after and
multiline `$` matches before: LF, CR, LINE SEPARATOR (U+2028), PARAGRAPH
SEPARATOR (U+2029). -/
def isLineTerminator (c : Char) : Bool :=
  decide (c.toNat = 10 ∨ c.toNat = 13 ∨ c.toNat = 8232 ∨ c.toNat = 8233)

/-- Whether the position right after a consumed (non-empty) character run is
a multiline line start: its last character is a line terminator. -/
def endsAtLineStart (run : List Char) : Bool :=
  match run.getLast? with
  | some c => isLineTerminator c
  | none => false

/-- The replacement text of the bullet pass, as the bytes appear in the
source file. -/
def bulletReplacement : List Char := "â€¢ ".data

/-- Attempt of `^\s*[\*\-\+]\s+` at a line-start position: maximal
whitespace, a bullet character, then at least one whitespace character
(maximal).  Returns the remainder after the match and whether the resumption
position is again a line start (the last consumed character was a line
terminator). -/
def matchBulletAt (s : List Char) : Option (List Char × Bool) :=
  match s.dropWhile isJsWs with
  | c :: rest =>
    if c == '*' || c == '-' || c == '+' then
      let ws := rest.takeWhile isJsWs
      if ws.isEmpty then none
      else some (rest.drop ws.length, endsAtLineStart ws)
    else none
  | [] => none

/-- Walk for `replace(/^\s*[\*\-\+]\s+/gm, 'â€¢ ')`: try the pattern at
every line-start position (string start or right after a line terminator),
copy elsewhere.  Fuel of input length + 1 is always enough since every step
consumes at least one character. -/
def bulletPassAux : Nat → Bool → List Char → List Char
  | 0, _, s => s
  | _, _, [] => []
  | fuel + 1, lineStart, c :: cs =>
    if lineStart then
      match matchBulletAt (c :: cs) with
      | some (rest, ls2) => bulletReplacement ++ bulletPassAux fuel ls2 rest
      | none => c :: bulletPassAux fuel (isLineTerminator c) cs
    else c :: bulletPassAux fuel (isLineTerminator c) cs

/-- Embeds `replace(/^\s*[\*\-\+]\s+/gm, 'â€¢ ')`. -/
def bulletPass (s : List Char) : List Char :=
  bulletPassAux (s.length + 1) true s

/-- Attempt of `^\s*\d+\.\s+` at a line-start position. -/
def matchNumberedAt (s : List Char) : Option (List Char × Bool) :=
  let t := s.dropWhile isJsWs
  let ds := t.takeWhile isAsciiDigit
  if ds.isEmpty then none
  else
    match t.drop ds.length with
    | '.' :: rest =>
      let ws := rest.takeWhile isJsWs
      if ws.isEmpty then none
      else some (rest.drop ws.length, endsAtLineStart ws)
    | _ => none

/-- Walk for `replace(/^\s*\d+\.\s+/gm, '')`. -/
def numberedPassAux : Nat → Bool → List Char → List Char
  | 0, _, s => s
  | _, _, [] => []
  | fuel + 1, lineStart, c :: cs =>
    if lineStart then
      match matchNumberedAt (c :: cs) with
      | some (rest, ls2) => numberedPassAux fuel ls2 rest
      | none => c :: numberedPassAux fuel (isLineTerminator c) cs
    else c :: numberedPassAux fuel (isLineTerminator c) cs

/-- Embeds `replace(/^\s*\d+\.\s+/gm, '')`. -/
def numberedPass (s : List Char) : List Char :=
  numberedPassAux (s.length + 1) true s

/-- Embeds `replace(/\.{3,}/g, '...')`. -/
def capDots (s : List Char) : List Char :=
  mapRuns (· == '.') (fun r => if 3 ≤ r.length then List.replicate 3 '.' else r) s

/-- Embeds `replace(/!{2,}/g, '!')`. -/
def capBangs (s : List Char) : List Char :=
  mapRuns (· == '!') (fun r => if 2 ≤ r.length then ['!'] else r) s

/-- Embeds `replace(/\?{2,}/g, '?')`. -/
def capQuestions (s : List Char) : List Char :=
  mapRuns (· == '?') (fun r => if 2 ≤ r.length then ['?'] else r) s

/-- Embeds `replace(/[ \t]{2,}/g, ' ')`: a mixed run of two or more spaces/tabs
becomes one space; a lone space or tab stays as it is. -/
def capSpaceTabRuns (s : List Char) : List Char :=
  mapRuns (fun c => c == ' ' || c == '\t')
    (fun r => if 2 ≤ r.length then [' '] else r) s

/-- Offset of the last line terminator (LF, CR, U+2028, U+2029) within a
whitespace run, if any. -/
def lastLineTermIdx (r : List Char) : Option Nat :=
  match r.reverse.findIdx? isLineTerminator with
  | some j => some (r.length - 1 - j)
  | none => none

/-- Whether the character at offset `j` of a run is a line terminator. -/
def lineTermAt (run : List Char) (j : Nat) : Bool :=
  match run[j]? with
  | some c => isLineTerminator c
  | none => false

/-- Walk for `replace(/^\s+|\s+$/gm, '')`.  At a line start, `^\s+` eats the
whole maximal whitespace run.  Elsewhere `\s+$` matches a whitespace run
that ends at a line end: greedy backtracking stops at the end of the string,
or else just before the last line terminator inside the run (the matched
part must be non-empty). -/
def lineTrimAux : Nat → Bool → List Char → List Char
  | 0, _, s => s
  | _, _, [] => []
  | fuel + 1, lineStart, c :: cs =>
    if isJsWs c then
      let run := (c :: cs).takeWhile isJsWs
      let rest := (c :: cs).drop run.length
      if lineStart then
        lineTrimAux fuel (endsAtLineStart run) rest
      else if rest.isEmpty then []
      else
        match lastLineTermIdx run with
        | some i =>
          if 1 ≤ i then
            lineTrimAux fuel (lineTermAt run (i-1)) ((c :: cs).drop i)
          else c :: lineTrimAux fuel (isLineTerminator c) cs
        | none => c :: lineTrimAux fuel (isLineTerminator c) cs
    else c :: lineTrimAux fuel (isLineTerminator c) cs

/-- Embeds `replace(/^\s+|\s+$/gm, '')`. -/
def lineTrim (s : List Char) : List Char :=
  lineTrimAux (s.length + 1) true s

/-- Embeds `FileService.cleanAnalysisText` (file.service.js lines 723-764): the
replacement passes in source order, then the final `.trim()`.  The leading
`if (!text) return ''` is the empty-string guard. -/
def cleanAnalysisText (text : String) : String :=
  if text = "" then ""
  else
    let s1 := replaceLazyBetween "# ULTRA-COMPREHENSIVE".data "---".data true text.data
    let s2 := replaceLazyBetween "## Premium $50,000".data "---".data true s1
    let s3 := replaceLazyBetween "Premium $50,000 Consulting Deliverable".data "\n".data false s2
    let s4 := stripHashRuns4 s3
    let s5 := stripHashTriples s4
    let s6 := hashPairsToNewlines s5
    let s7 := hashToNewline s6
    let s8 := stripStarRuns3 s7
    let s9 := stripStarPairs s8
    let s10 := stripStars s9
    let s11 := stripDashRuns3 s10
    let s12 := stripEqRuns3 s11
    let s13 := capNewlines4 s12
    let s14 := newlineTriplesToPairs s13
    let s15 := bulletPass s14
    let s16 := numberedPass s15
    let s17 := capDots s16
    let s18 := capBangs s17
    let s19 := capQuestions s18
    let s20 := capSpaceTabRuns s19
    let s21 := lineTrim s20
    jsTrim ⟨s21⟩

/-- The header template of the cleaned `createFileContent` (lines 689-703). -/
def cleanedHeader (brandName : String) (m : Metadata) (fd : FormData) : String :=
  "Brand Visibility Analysis of " ++ brandName ++ "\n" ++ repeatChar '=' 50 ++
  "\n\nGenerated: " ++ m.timestampStr ++
  "\nWebsite: " ++ jsOrElse fd.websiteUrl "Not provided" ++
  "\nContact: " ++ jsOrElse fd.email "Not provided" ++
  "\n\nAnalysis Parameters:\n- Processing Time: " ++ toString m.processingTime ++ "ms" ++
  "\n- Analysis Quality: " ++
    (if 5000 < m.responseLength then "COMPREHENSIVE" else "STANDARD") ++
  "\n- Client Specifications: " ++ toString fd.competitors.length ++
    " competitors, " ++ toString fd.topics.length ++ " topics, " ++
    toString fd.prompts.length ++ " prompts" ++
  "\n\n" ++ repeatChar '=' 50 ++ "\n\n"

/-- The footer template of the cleaned `createFileContent` (lines 705-710). -/
def cleanedFooter (fd : FormData) (nowStr : String) : String :=
  "\n\n" ++ repeatChar '=' 50 ++
  "\nAnalysis completed on " ++ nowStr ++
  "\nFor questions or clarifications, contact: " ++ jsOrElse fd.email "client" ++
  "\n" ++ repeatChar '=' 50

/-- Embeds `FileService.createFileContent` (cleaned variant, lines 687-716):
`header + cleanAnalysisText(analysisText) + footer`. -/
def createFileContentCleaned (brandName analysisText : String) (m : Metadata)
    (fd : FormData) (nowStr : String) : String :=
  cleanedHeader brandName m fd ++ cleanAnalysisText analysisText ++
    cleanedFooter fd nowStr

/-- A concrete analyzer outcome used to instantiate the bulk handler: the
spec's own example, where BrandA's upstream call fails and BrandB's
succeeds. -/
def bulkOracleExample (b : String) : Except String BrandResult :=
  if b = "BrandA" then .error "upstream failure"
  else .ok ⟨b, b ++ "_analysis.txt", "id-1"⟩

/-! ### Theorems -/

theorem toNat_ofNat_valid (n : Nat) (h : n < 55296) : (Char.ofNat n).toNat = n := by
  have hv : n.isValidChar := Or.inl h
  simp [Char.ofNat, hv, Char.ofNatAux, Char.toNat, UInt32.toNat, BitVec.toNat_ofNatLt]

theorem asciiLower_toNat (c : Char) (h : 65 ≤ c.toNat ∧ c.toNat ≤ 90) :
    (asciiLower c).toNat = c.toNat + 32 := by
  rw [asciiLower, if_pos h, toNat_ofNat_valid]
  omega

theorem asciiLower_id (c : Char) (h : ¬ (65 ≤ c.toNat ∧ c.toNat ≤ 90)) :
    asciiLower c = c := by
  rw [asciiLower, if_neg h]

theorem mem_collapseWsAux {c : Char} :
    ∀ (l : List Char) (b : Bool), c ∈ collapseWsAux b l →
      c = '_' ∨ (c ∈ l ∧ isJsWs c = false)
  | [], b => fun h => by simp [collapseWsAux] at h
  | d :: ds, b => fun h => by
    simp only [collapseWsAux] at h
    by_cases hw : isJsWs d
    · rw [if_pos hw] at h
      cases b with
      | true =>
        rw [if_pos rfl] at h
        rcases mem_collapseWsAux ds true h with h' | ⟨h1, h2⟩
        · exact Or.inl h'
        · exact Or.inr ⟨List.mem_cons_of_mem _ h1, h2⟩
      | false =>
        rw [if_neg (fun hc => Bool.false_ne_true hc)] at h
        rcases List.mem_cons.mp h with rfl | h'
        · exact Or.inl rfl
        · rcases mem_collapseWsAux ds true h' with h'' | ⟨h1, h2⟩
          · exact Or.inl h''
          · exact Or.inr ⟨List.mem_cons_of_mem _ h1, h2⟩
    · rw [if_neg hw] at h
      rcases List.mem_cons.mp h with rfl | h'
      · exact Or.inr ⟨List.mem_cons_self _ _, by simpa using hw⟩
      · rcases mem_collapseWsAux ds false h' with h'' | ⟨h1, h2⟩
        · exact Or.inl h''
        · exact Or.inr ⟨List.mem_cons_of_mem _ h1, h2⟩

theorem collapseWsAux_eq_self :
    ∀ (l : List Char), (∀ c ∈ l, isJsWs c = false) → ∀ b, collapseWsAux b l = l
  | [], _, _ => rfl
  | d :: ds, h, b => by
    have hd : isJsWs d = false := h d (List.mem_cons_self _ _)
    simp only [collapseWsAux, hd, Bool.false_eq_true, if_false, List.cons.injEq, true_and]
    exact collapseWsAux_eq_self ds (fun c hc => h c (List.mem_cons_of_mem _ hc)) false

theorem sane_keep {c : Char} (h : isSaneChar c = true) :
    keepChar c = true := by
  simp only [isSaneChar, decide_eq_true_eq] at h
  simp only [keepChar, isAsciiAlnum, isJsWs, Bool.or_eq_true, decide_eq_true_eq]
  omega

theorem sane_not_ws {c : Char} (h : isSaneChar c = true) :
    isJsWs c = false := by
  simp only [isSaneChar, decide_eq_true_eq] at h
  simp only [isJsWs, decide_eq_false_iff_not]
  omega

theorem sane_lower_id {c : Char} (h : isSaneChar c = true) :
    asciiLower c = c := by
  simp only [isSaneChar, decide_eq_true_eq] at h
  exact asciiLower_id c (by omega)

theorem asciiLower_sane {c : Char} (hk : keepChar c = true) (hw : isJsWs c = false) :
    isSaneChar (asciiLower c) = true := by
  by_cases hU : 65 ≤ c.toNat ∧ c.toNat ≤ 90
  · have ht := asciiLower_toNat c hU
    simp only [isSaneChar, ht, decide_eq_true_eq]
    omega
  · rw [asciiLower_id c hU]
    simp only [keepChar, Bool.or_eq_true] at hk
    rcases hk with ((ha | hws) | h45) | h95
    · simp only [isAsciiAlnum, decide_eq_true_eq] at ha
      simp only [isSaneChar, decide_eq_true_eq]
      omega
    · rw [hw] at hws
      exact absurd hws Bool.false_ne_true
    · simp only [decide_eq_true_eq] at h45
      simp only [isSaneChar, decide_eq_true_eq]
      omega
    · simp only [decide_eq_true_eq] at h95
      simp only [isSaneChar, decide_eq_true_eq]
      omega

theorem underscore_sane : isSaneChar '_' = true := by decide

theorem sanitizeCore_sane (l : List Char) :
    ∀ c ∈ sanitizeCore l, isSaneChar c = true := by
  intro c hc
  have hc' : c ∈ (collapseWsAux false (l.filter keepChar)).map asciiLower :=
    List.mem_of_mem_take hc
  rcases List.mem_map.mp hc' with ⟨d, hd, rfl⟩
  rcases mem_collapseWsAux _ _ hd with rfl | ⟨hd1, hd2⟩
  · rw [sane_lower_id underscore_sane]; exact underscore_sane
  · exact asciiLower_sane (List.mem_filter.mp hd1).2 hd2

theorem map_eq_self_of_fix {α : Type} (f : α → α) :
    ∀ (l : List α), (∀ a ∈ l, f a = a) → l.map f = l
  | [], _ => rfl
  | a :: as, h => by
    simp only [List.map_cons, List.cons.injEq]
    exact ⟨h a (List.mem_cons_self _ _),
      map_eq_self_of_fix f as (fun b hb => h b (List.mem_cons_of_mem _ hb))⟩

theorem sanitizeCore_length_le (l : List Char) : (sanitizeCore l).length ≤ 50 := by
  rw [sanitizeCore, List.length_take]
  exact Nat.min_le_left _ _

theorem sanitizeCore_fixed {l : List Char}
    (hs : ∀ c ∈ l, isSaneChar c = true) (hl : l.length ≤ 50) :
    sanitizeCore l = l := by
  have h1 : l.filter keepChar = l :=
    List.filter_eq_self.mpr (fun c hc => sane_keep (hs c hc))
  have h2 : collapseWsAux false l = l :=
    collapseWsAux_eq_self l (fun c hc => sane_not_ws (hs c hc)) false
  have h3 : l.map asciiLower = l :=
    map_eq_self_of_fix _ l (fun c hc => sane_lower_id (hs c hc))
  rw [sanitizeCore, h1, h2, h3, List.take_of_length_le hl]

theorem sanitizeCore_idem (l : List Char) :
    sanitizeCore (sanitizeCore l) = sanitizeCore l :=
  sanitizeCore_fixed (sanitizeCore_sane l) (sanitizeCore_length_le l)

/-- Claim C3: `sanitizeBrandName` is idempotent, its output is at most 50
characters long, every output character lies in `[a-z0-9_-]`, and the output
is its own lower-casing (it is already lowercase). -/
theorem sanitizeBrandName_props (x : String) :
    sanitizeBrandName (sanitizeBrandName x) = sanitizeBrandName x ∧
    (sanitizeBrandName x).length ≤ 50 ∧
    (∀ c ∈ (sanitizeBrandName x).data, isSaneChar c = true) ∧
    jsToLower (sanitizeBrandName x) = sanitizeBrandName x := by
  refine ⟨?_, ?_, ?_, ?_⟩
  · show (⟨sanitizeCore (sanitizeCore x.data)⟩ : String) = ⟨sanitizeCore x.data⟩
    rw [sanitizeCore_idem]
  · exact sanitizeCore_length_le x.data
  · exact sanitizeCore_sane x.data
  · show (⟨(sanitizeCore x.data).map asciiLower⟩ : String) = ⟨sanitizeCore x.data⟩
    rw [map_eq_self_of_fix _ _ (fun c hc => sane_lower_id (sanitizeCore_sane x.data c hc))]

/-- Witness for C3: the theorem applied at the concrete brand name
"Acme Corp!!", with the membership hypothesis discharged at the character
`a`. -/
theorem sanitizeBrandName_props_witness :
    sanitizeBrandName (sanitizeBrandName "Acme Corp!!") = sanitizeBrandName "Acme Corp!!" ∧
    isSaneChar 'a' = true :=
  ⟨(sanitizeBrandName_props "Acme Corp!!").1,
    (sanitizeBrandName_props "Acme Corp!!").2.2.1 'a' (by decide)⟩

/-- Counterexample to claim C1: in `ClaudeService.analyzeBrand`
(claude.service.js), a successful follow-up does not yield the concatenation
of the two texts with summed token counts — it replaces both.  Primary
response "A" is truncated (stop reason `max_tokens`, no closing marker), the
follow-up returns "B" with different token counts, and the result is "B"
with the follow-up's counts. -/
theorem analyzeBrand_replaces_counterexample :
    (analyzeBrandCore ⟨"A", 10, 20, "max_tokens"⟩ (.ok ⟨"B", 30, 40, "end_turn"⟩)).analysis = "B" ∧
    (analyzeBrandCore ⟨"A", 10, 20, "max_tokens"⟩ (.ok ⟨"B", 30, 40, "end_turn"⟩)).followUpCalls = 1 ∧
    (analyzeBrandCore ⟨"A", 10, 20, "max_tokens"⟩ (.ok ⟨"B", 30, 40, "end_turn"⟩)).analysis ≠ "A" ++ "B" ∧
    (analyzeBrandCore ⟨"A", 10, 20, "max_tokens"⟩ (.ok ⟨"B", 30, 40, "end_turn"⟩)).analysis ≠ "A" ++ "\n\n" ++ "B" ∧
    (analyzeBrandCore ⟨"A", 10, 20, "max_tokens"⟩ (.ok ⟨"B", 30, 40, "end_turn"⟩)).inputTokens ≠ 10 + 30 ∧
    (analyzeBrandCore ⟨"A", 10, 20, "max_tokens"⟩ (.ok ⟨"B", 30, 40, "end_turn"⟩)).outputTokens ≠ 20 + 40 := by
  decide

/-- Claim C1 as amended: on a truncated response both variants issue exactly
one follow-up request, but only `analyzeBrandComprehensive` concatenates the
texts (with a blank-line separator) and sums the token counts;
`analyzeBrand` replaces the text and the token counts with the follow-up's.
On a complete response both variants issue zero follow-up requests and
return the single response's text and token counts unchanged. -/
theorem completionHeuristic_amended (p c : ApiResponse) (f : Except ErrInfo ApiResponse) :
    (wasIncomplete executiveConclusionMarker p = true →
      analyzeBrandComprehensiveCore p (.ok c) =
        ⟨p.text ++ "\n\n" ++ c.text, p.inputTokens + c.inputTokens,
          p.outputTokens + c.outputTokens,
          p.inputTokens + c.inputTokens + (p.outputTokens + c.outputTokens), 1⟩) ∧
    (wasIncomplete implementationRoadmapMarker p = true →
      analyzeBrandCore p (.ok c) =
        ⟨c.text, c.inputTokens, c.outputTokens, c.inputTokens + c.outputTokens, 1⟩) ∧
    (wasIncomplete executiveConclusionMarker p = false →
      analyzeBrandComprehensiveCore p f =
        ⟨p.text, p.inputTokens, p.outputTokens, p.inputTokens + p.outputTokens, 0⟩) ∧
    (wasIncomplete implementationRoadmapMarker p = false →
      analyzeBrandCore p f =
        ⟨p.text, p.inputTokens, p.outputTokens, p.inputTokens + p.outputTokens, 0⟩) := by
  refine ⟨fun h => ?_, fun h => ?_, fun h => ?_, fun h => ?_⟩
  · rw [analyzeBrandComprehensiveCore, if_pos h]
  · rw [analyzeBrandCore, if_pos h]
  · rw [analyzeBrandComprehensiveCore.eq_def, if_neg (by rw [h]; exact Bool.false_ne_true)]
  · rw [analyzeBrandCore.eq_def, if_neg (by rw [h]; exact Bool.false_ne_true)]

/-- Witness for the amended C1: a concrete truncated primary response and a
concrete follow-up, with the truncation hypotheses discharged by
computation. -/
theorem completionHeuristic_amended_witness :
    analyzeBrandComprehensiveCore ⟨"A", 1, 2, "max_tokens"⟩ (.ok ⟨"B", 3, 4, "end_turn"⟩) =
      ⟨"A" ++ "\n\n" ++ "B", 1 + 3, 2 + 4, 1 + 3 + (2 + 4), 1⟩ ∧
    analyzeBrandCore ⟨"A", 1, 2, "max_tokens"⟩ (.ok ⟨"B", 3, 4, "end_turn"⟩) =
      ⟨"B", 3, 4, 3 + 4, 1⟩ ∧
    analyzeBrandComprehensiveCore ⟨"done EXECUTIVE CONCLUSION", 1, 2, "end_turn"⟩ (.ok ⟨"B", 3, 4, "end_turn"⟩) =
      ⟨"done EXECUTIVE CONCLUSION", 1, 2, 1 + 2, 0⟩ :=
  ⟨(completionHeuristic_amended ⟨"A", 1, 2, "max_tokens"⟩ ⟨"B", 3, 4, "end_turn"⟩
      (.ok ⟨"B", 3, 4, "end_turn"⟩)).1 (by decide),
   (completionHeuristic_amended ⟨"A", 1, 2, "max_tokens"⟩ ⟨"B", 3, 4, "end_turn"⟩
      (.ok ⟨"B", 3, 4, "end_turn"⟩)).2.1 (by decide),
   (completionHeuristic_amended ⟨"done EXECUTIVE CONCLUSION", 1, 2, "end_turn"⟩
      ⟨"B", 3, 4, "end_turn"⟩ (.ok ⟨"B", 3, 4, "end_turn"⟩)).2.2.1 (by decide)⟩

/-- Claim C2: when the follow-up request itself fails, both Analysis Client
variants return successfully (`Except.ok`) with the original, possibly
truncated, text and the original call's token counts; the follow-up error is
not propagated. -/
theorem followUpFailure_keepsOriginal (p : ApiResponse) (e : ErrInfo) :
    (wasIncomplete implementationRoadmapMarker p = true →
      claudeAnalyzeBrand (.ok p) (.error e) =
        .ok ⟨p.text, p.inputTokens, p.outputTokens,
          p.inputTokens + p.outputTokens, 1⟩) ∧
    (wasIncomplete executiveConclusionMarker p = true →
      claudeAnalyzeBrandComprehensive (.ok p) (.error e) =
        .ok ⟨p.text, p.inputTokens, p.outputTokens,
          p.inputTokens + p.outputTokens, 1⟩) := by
  constructor
  · intro h
    show Except.ok (analyzeBrandCore p (.error e)) = _
    rw [analyzeBrandCore, if_pos h]
  · intro h
    show Except.ok (analyzeBrandComprehensiveCore p (.error e)) = _
    rw [analyzeBrandComprehensiveCore, if_pos h]

/-- Witness for C2: a concrete truncated primary response whose follow-up
fails with a 500; the original text and counts come back inside `.ok`. -/
theorem followUpFailure_keepsOriginal_witness :
    claudeAnalyzeBrand (.ok ⟨"partial text", 7, 9, "max_tokens"⟩)
        (.error ⟨some 500, none, "overloaded"⟩) =
      .ok ⟨"partial text", 7, 9, 7 + 9, 1⟩ :=
  (followUpFailure_keepsOriginal ⟨"partial text", 7, 9, "max_tokens"⟩
    ⟨some 500, none, "overloaded"⟩).1 (by decide)

/-- Counterexample to claim C5: the claim maps EVERY 5xx status to the
upstream-unavailable (server error) class, but the code tests
`error.status === 500` only; a 502 falls through to the generic unknown
wrapper. -/
theorem mapClaudeError_502_counterexample :
    (500 ≤ 502 ∧ 502 < 600) ∧
    mapClaudeError ⟨some 502, none, "Bad gateway"⟩ = .unknown "Bad gateway" ∧
    mapClaudeError ⟨some 502, none, "Bad gateway"⟩ ≠ .serverError := by
  decide

/-- Claim C5 as amended: 429 maps to rate-limited (with the retry-after
header, defaulting to 60), 401 to unauthorized, 400 to bad-request, and
exactly the status 500 — not every 5xx — to the upstream-unavailable class;
every other failure, including 5xx statuses other than 500, maps to the
unknown class wrapping the original message. -/
theorem mapClaudeError_amended (e : ErrInfo) :
    (e.status = some 429 → mapClaudeError e = .rateLimited (e.retryAfterHeader.getD 60)) ∧
    (e.status = some 401 → mapClaudeError e = .unauthorized) ∧
    (e.status = some 400 → mapClaudeError e = .badRequest e.message) ∧
    (e.status = some 500 → mapClaudeError e = .serverError) ∧
    (e.status ≠ some 429 → e.status ≠ some 401 → e.status ≠ some 400 →
      e.status ≠ some 500 → mapClaudeError e = .unknown e.message) := by
  refine ⟨fun h => ?_, fun h => ?_, fun h => ?_, fun h => ?_,
    fun h1 h2 h3 h4 => ?_⟩ <;>
    simp [mapClaudeError, *]

/-- Witness for the amended C5: concrete failures with statuses 429 and 502,
with the status hypotheses discharged by computation. -/
theorem mapClaudeError_amended_witness :
    mapClaudeError ⟨some 429, some 30, "rate"⟩ = .rateLimited 30 ∧
    mapClaudeError ⟨some 503, none, "unavailable"⟩ = .unknown "unavailable" :=
  ⟨(mapClaudeError_amended ⟨some 429, some 30, "rate"⟩).1 rfl,
   (mapClaudeError_amended ⟨some 503, none, "unavailable"⟩).2.2.2.2
     (by decide) (by decide) (by decide) (by decide)⟩

/-- Claim C6: when the Analysis Client call fails, neither current-generation
orchestrator writes anything to the report tree, and the client's error is
propagated unchanged (the comprehensive variant rethrows it inside its error
sum). -/
theorem orchestrator_noWrite_onFailure (reportsDir : String) (fs : List FsEntry)
    (e : ClaudeApiError) (brandName requestId timestamp : String) (now : Nat)
    (fd : FormData) (u : Bool) (hv : validateFormData fd u = []) :
    brandServiceAnalyzeBrand reportsDir fs (.error e) brandName requestId timestamp now =
      (.error e, fs) ∧
    brandServiceAnalyzeComprehensive reportsDir fs fd u (.error e) requestId timestamp now =
      (.error (.upstream e), fs) := by
  constructor
  · rfl
  · simp [brandServiceAnalyzeComprehensive, hv]

/-- Witness for C6: a concrete valid form whose upstream call fails with an
unknown error; the tree stays empty and the error comes back unchanged. -/
theorem orchestrator_noWrite_onFailure_witness :
    brandServiceAnalyzeComprehensive "./reports" []
        ⟨"Acme Corp", "https://acme.test", "a@acme.test", [], [], [], ""⟩ true
        (.error (.unknown "boom")) "req-1" "2025-01-01_00-00-00" 0 =
      (.error (.upstream (.unknown "boom")), []) :=
  (orchestrator_noWrite_onFailure "./reports" [] (.unknown "boom") "Acme Corp"
    "req-1" "2025-01-01_00-00-00" 0
    ⟨"Acme Corp", "https://acme.test", "a@acme.test", [], [], [], ""⟩ true
    (by decide)).2

theorem bulkLoop_spec (analyze : String → Except String BrandResult) :
    ∀ brands : List String,
      bulkLoop analyze brands =
        (brands.filterMap (fun b => match analyze b with
            | .ok r => some ⟨r.brandName, r.fileName, r.requestId⟩
            | .error _ => none),
         brands.filterMap (fun b => match analyze b with
            | .ok _ => none
            | .error m => some ⟨b, m⟩),
         brands)
  | [] => rfl
  | b :: bs => by
    simp only [bulkLoop, bulkLoop_spec analyze bs]
    cases h : analyze b <;> simp [List.filterMap_cons, h]

/-- Claim C7: an empty brands array or more than 10 brands yields a 400
response with nothing analyzed; otherwise every brand is analyzed, in input
order, successes and failures are collected independently (a failure is
recorded with that brand's name and error message and does not stop the
remaining brands), and the response carries both lists with their counts. -/
theorem bulkHandler_spec (analyze : String → Except String BrandResult)
    (brands : List String) :
    (brands = [] →
      bulkHandler analyze brands =
        (.badRequest "Brands array is required and must not be empty", [])) ∧
    (10 < brands.length →
      bulkHandler analyze brands =
        (.badRequest "Maximum 10 brands allowed per bulk request", [])) ∧
    (brands ≠ [] → brands.length ≤ 10 →
      bulkHandler analyze brands =
        (let succ := brands.filterMap (fun b => match analyze b with
            | .ok r => some (⟨r.brandName, r.fileName, r.requestId⟩ : BulkSuccess)
            | .error _ => none)
         let failed := brands.filterMap (fun b => match analyze b with
            | .ok _ => none
            | .error m => some (⟨b, m⟩ : BulkFailure))
         (.ok succ failed brands.length succ.length failed.length, brands))) := by
  refine ⟨fun h => ?_, fun h => ?_, fun h1 h2 => ?_⟩
  · subst h
    rfl
  · have h0 : brands.length ≠ 0 := by omega
    rw [bulkHandler, if_neg h0, if_pos h]
  · have h0 : brands.length ≠ 0 := by
      intro hc
      exact h1 (List.length_eq_zero.mp hc)
    have h10 : ¬ 10 < brands.length := by omega
    rw [bulkHandler, if_neg h0, if_neg h10, bulkLoop_spec]

/-- Witness for C7: the spec's own example — bulk analyze of BrandA and
BrandB where BrandA's upstream call fails and BrandB's succeeds; BrandB is
still processed and both entries are reported with counts 1 and 1. -/
theorem bulkHandler_spec_witness :
    bulkHandler bulkOracleExample ["BrandA", "BrandB"] =
      (.ok [⟨"BrandB", "BrandB_analysis.txt", "id-1"⟩]
        [⟨"BrandA", "upstream failure"⟩] 2 1 1,
       ["BrandA", "BrandB"]) := by
  rw [(bulkHandler_spec bulkOracleExample ["BrandA", "BrandB"]).2.2
    (by decide) (by decide)]
  decide

/-- Counterexample to claim C9: the file name does not start with the
sanitized (folder) brand token followed by an underscore-free separator —
`generateFileName` uses its own sanitization that maps every non-alphanumeric
character to an underscore, while `sanitizeBrandName` strips them.  For brand
"Acme!" the folder is `acme` but the file name begins `acme__analysis_`. -/
theorem savedReportPath_counterexample :
    sanitizeBrandName "Acme!" = "acme" ∧
    savedReportPath "./reports" "Acme!" "req-1" "2025-01-01_00-00-00" =
      "./reports/acme/acme__analysis_2025-01-01_00-00-00_req.txt" ∧
    jsStartsWith (generateFileName "Acme!" "req-1" "2025-01-01_00-00-00")
      (sanitizeBrandName "Acme!" ++ "_analysis_") = false := by
  decide

/-- Claim C9 as amended: a saved report lands at
`reportsDir/<sanitizeBrandName brand>/<fileName>`, where the file name is
`fileNameSanitize brand ++ "_analysis_" ++ timestamp ++ "_" ++ shortId ++
".txt"` with `fileNameSanitize` replacing every non-alphanumeric character
by an underscore (not the folder sanitization); for "Acme Corp" the two
sanitizations coincide, the file lands under `reports/acme_corp/` and its
name starts with `acme_corp_analysis_`. -/
theorem savedReportPath_amended (reportsDir brandName requestId timestamp : String) :
    savedReportPath reportsDir brandName requestId timestamp =
      reportsDir ++ "/" ++ sanitizeBrandName brandName ++ "/" ++
        (fileNameSanitize brandName ++ "_analysis_" ++ timestamp ++ "_" ++
          shortRequestId requestId ++ ".txt") ∧
    savedReportPath "./reports" "Acme Corp" "abc-123" "2025-01-01_00-00-00" =
      "./reports/acme_corp/acme_corp_analysis_2025-01-01_00-00-00_abc.txt" ∧
    jsStartsWith (generateFileName "Acme Corp" "abc-123" "2025-01-01_00-00-00")
      "acme_corp_analysis_" = true := by
  refine ⟨?_, by decide, by decide⟩
  show _ = reportsDir ++ "/" ++ sanitizeBrandName brandName ++ "/" ++
    generateFileName brandName requestId timestamp
  rfl

theorem isPrefixOf_append_self (l t : List Char) : l.isPrefixOf (l ++ t) = true := by
  induction l with
  | nil => simp [List.isPrefixOf]
  | cons c cs ih => simp [List.isPrefixOf, ih]

/-- Claim C10: when both an `Authorization: Bearer <token>` header and an
`x-api-key` header are present, only the Bearer token is compared against
the configured key; with an invalid Bearer token the request is rejected 401
even when the `x-api-key` header holds the correct key. -/
theorem authMiddleware_bearer_precedence (t configKey : String)
    (apiKeyHeader : Option String) (h : t ≠ configKey) :
    authMiddleware (some ("Bearer " ++ t)) apiKeyHeader configKey =
      .invalidKey401 := by
  have hdata : ("Bearer " ++ t).data = "Bearer ".data ++ t.data := rfl
  have hne : truthyString (some ("Bearer " ++ t)) = true := by
    simp only [truthyString, decide_eq_true_eq]
    intro hc
    have : ("Bearer " ++ t).data = "".data := congrArg String.data hc
    rw [hdata] at this
    simp at this
  have hsw : jsStartsWith ("Bearer " ++ t) "Bearer " = true := by
    rw [jsStartsWith, hdata]
    exact isPrefixOf_append_self _ _
  have hdrop : (("Bearer " ++ t).data.drop 7 : List Char) = t.data := rfl
  simp only [authMiddleware, hne, Option.getD_some, hsw, Bool.and_self,
    if_true, hdrop]
  have heta : (⟨t.data⟩ : String) = t := rfl
  rw [heta, if_pos h]

/-- Witness for C10: the concrete token "wrong" against configured key
"secret", with a correct `x-api-key` also present. -/
theorem authMiddleware_bearer_precedence_witness :
    authMiddleware (some ("Bearer " ++ "wrong")) (some "secret") "secret" =
      .invalidKey401 :=
  authMiddleware_bearer_precedence "wrong" "secret" (some "secret") (by decide)

theorem jsEndsWith_append (s suf : String) : jsEndsWith (s ++ suf) suf = true := by
  rw [jsEndsWith, List.isSuffixOf, String.data_append, List.reverse_append]
  exact isPrefixOf_append_self _ _

theorem generateFileName_endsWith_txt (b r ts : String) :
    jsEndsWith (generateFileName b r ts) ".txt" = true :=
  jsEndsWith_append _ ".txt"

/-- Counterexample to claim C8: "Acme!!" and "ACME" are distinct spellings
that sanitize to the same folder token `acme`, and both reports do land in
that folder — but a list call filtered by the original spelling "Acme!!"
returns NEITHER report (the case-insensitive substring match runs against
the sanitized folder and file names, which no longer contain `!`), while
filtering by "ACME" returns both. -/
theorem listFilter_counterexample :
    sanitizeBrandName "Acme!!" = sanitizeBrandName "ACME" ∧
    "Acme!!" ≠ "ACME" ∧
    ((saveAnalysisToFileFs "./reports"
        (saveAnalysisToFileFs "./reports" [] "Acme!!" "req-1" "2025-01-01_00-00-00" 1).1
        "ACME" "req-2" "2025-01-02_00-00-00" 2).1.map FsEntry.folder =
      [some "acme", some "acme"]) ∧
    getAllReports "./reports"
        (saveAnalysisToFileFs "./reports"
          (saveAnalysisToFileFs "./reports" [] "Acme!!" "req-1" "2025-01-01_00-00-00" 1).1
          "ACME" "req-2" "2025-01-02_00-00-00" 2).1
        (some "Acme!!") none none = [] ∧
    (getAllReports "./reports"
        (saveAnalysisToFileFs "./reports"
          (saveAnalysisToFileFs "./reports" [] "Acme!!" "req-1" "2025-01-01_00-00-00" 1).1
          "ACME" "req-2" "2025-01-02_00-00-00" 2).1
        (some "ACME") none none).length = 2 := by
  decide

/-- Claim C8 as amended: two brand spellings with the same sanitized token
store their reports in the same brand folder, and a list call filtered by a
term whose lower-casing occurs in the sanitized token returns both; a
spelling containing characters the sanitizer strips (such as "Acme!!") may
match nothing. -/
theorem sameFolder_listing_amended (b1 b2 req1 req2 ts1 ts2 : String)
    (t1 t2 : Nat) (term : String)
    (hsan : sanitizeBrandName b1 = sanitizeBrandName b2)
    (hterm : jsIncludes (jsToLower (sanitizeBrandName b1)) (jsToLower term) = true) :
    (∀ e ∈ (saveAnalysisToFileFs "./reports"
        (saveAnalysisToFileFs "./reports" [] b1 req1 ts1 t1).1
        b2 req2 ts2 t2).1, e.folder = some (sanitizeBrandName b1)) ∧
    (getAllReports "./reports"
        (saveAnalysisToFileFs "./reports"
          (saveAnalysisToFileFs "./reports" [] b1 req1 ts1 t1).1
          b2 req2 ts2 t2).1
        (some term) none none).length = 2 := by
  set fs2 := (saveAnalysisToFileFs "./reports"
    (saveAnalysisToFileFs "./reports" [] b1 req1 ts1 t1).1 b2 req2 ts2 t2).1 with hfs2
  have hfs : fs2 = [⟨some (sanitizeBrandName b1), generateFileName b1 req1 ts1, t1⟩,
      ⟨some (sanitizeBrandName b2), generateFileName b2 req2 ts2, t2⟩] := rfl
  have hflt : fs2.filter (fun e => jsEndsWith e.name ".txt") = fs2 := by
    rw [List.filter_eq_self]
    intro e he
    rw [hfs] at he
    rcases List.mem_cons.mp he with rfl | he'
    · exact generateFileName_endsWith_txt b1 req1 ts1
    · rcases List.mem_cons.mp he' with rfl | he''
      · exact generateFileName_endsWith_txt b2 req2 ts2
      · simp at he''
  constructor
  · intro e he
    rw [hfs] at he
    rcases List.mem_cons.mp he with rfl | he'
    · rfl
    · rcases List.mem_cons.mp he' with rfl | he''
      · simp [hsan]
      · simp at he''
  · show ((getFilesList "./reports" fs2).filter (fun f =>
        jsIncludes (jsToLower f.brandName) (jsToLower term) ||
        jsIncludes (jsToLower f.fileName) (jsToLower term))).length = 2
    have hall : ∀ f ∈ getFilesList "./reports" fs2,
        (jsIncludes (jsToLower f.brandName) (jsToLower term) ||
         jsIncludes (jsToLower f.fileName) (jsToLower term)) = true := by
      intro f hf
      have hf' : f ∈ (fs2.filter (fun e => jsEndsWith e.name ".txt")).map
          (listedOfEntry "./reports") := by
        rw [getFilesList] at hf
        exact (List.perm_insertionSort _ _).mem_iff.mp hf
      rw [hflt, hfs] at hf'
      rcases List.mem_map.mp hf' with ⟨e, he, rfl⟩
      rcases List.mem_cons.mp he with rfl | he'
      · show (jsIncludes (jsToLower (sanitizeBrandName b1)) (jsToLower term) || _) = true
        rw [hterm, Bool.true_or]
      · rcases List.mem_cons.mp he' with rfl | he''
        · show (jsIncludes (jsToLower (sanitizeBrandName b2)) (jsToLower term) || _) = true
          rw [← hsan, hterm, Bool.true_or]
        · simp at he''
    rw [List.filter_eq_self.mpr hall, getFilesList, List.length_insertionSort,
      hflt, hfs]
    rfl

/-- Witness for the amended C8: the concrete spellings "Acme!!" and "ACME"
with filter term "ACME"; both reports are listed. -/
theorem sameFolder_listing_amended_witness :
    (getAllReports "./reports"
        (saveAnalysisToFileFs "./reports"
          (saveAnalysisToFileFs "./reports" [] "Acme!!" "req-1" "2025-01-01_00-00-00" 1).1
          "ACME" "req-2" "2025-01-02_00-00-00" 2).1
        (some "ACME") none none).length = 2 :=
  (sameFolder_listing_amended "Acme!!" "ACME" "req-1" "req-2"
    "2025-01-01_00-00-00" "2025-01-02_00-00-00" 1 2 "ACME"
    (by decide) (by decide)).2

theorem isSubstrCore_append (mid a b : List Char) :
    isSubstrCore mid (a ++ (mid ++ b)) = true := by
  induction a with
  | nil =>
    cases mid with
    | nil => cases b <;> simp [isSubstrCore, List.isPrefixOf]
    | cons m ms =>
      show isSubstrCore (m :: ms) (m :: (ms ++ b)) = true
      rw [isSubstrCore]
      have : (m :: ms).isPrefixOf (m :: (ms ++ b)) = true :=
        isPrefixOf_append_self (m :: ms) b
      rw [this, Bool.true_or]
  | cons c as ih =>
    rw [List.cons_append, isSubstrCore, ih, Bool.or_true]

set_option maxRecDepth 100000 in
/-- Counterexample to claim C4: with the cleaned `createFileContent` variant
(file.service.js lines 687-764), the analysis text "**" is erased by
`cleanAnalysisText` (the `\*{2}` pass), so the saved file content — which a
subsequent read returns verbatim — does not contain the analysis text at
all. -/
theorem createFileContentCleaned_counterexample :
    cleanAnalysisText "**" = "" ∧
    jsIncludes
      (createFileContentCleaned "b" "**"
        ⟨"1/1/2025, 12:00:00 AM", "req-1", "claude-3", 5, 100, 60, 40, 2⟩
        ⟨"b", "", "", [], [], [], ""⟩ "1/1/2025, 12:00:01 AM")
      "**" = false := by
  decide

/-- Claim C4 as amended: the plain `createFileContent` variant (lines
304-348) produces exactly `header ++ analysisText ++ footer`, so the
analysis text occurs contiguously between the rendered header and footer
(and the executable substring search confirms it); the cleaned variant
(lines 687-716) instead stores `cleanAnalysisText analysisText` between its
header and footer, which can differ from the original text. -/
theorem createFileContent_roundTrip_amended (brandName analysisText : String)
    (m : Metadata) (fd : FormData) (nowStr : String) :
    createFileContent brandName analysisText m fd nowStr =
      createFileContentHeader brandName m fd ++ analysisText ++
        createFileContentFooter fd nowStr ∧
    jsIncludes (createFileContent brandName analysisText m fd nowStr)
      analysisText = true ∧
    createFileContentCleaned brandName analysisText m fd nowStr =
      cleanedHeader brandName m fd ++ cleanAnalysisText analysisText ++
        cleanedFooter fd nowStr := by
  refine ⟨rfl, ?_, rfl⟩
  rw [jsIncludes, createFileContent, String.data_append, String.data_append,
    List.append_assoc]
  exact isSubstrCore_append _ _ _

end GeoAnalysis
